import Mathlib

/-!
Shallow embedding of the batch service-assignment rotation generator and its
preview/commit workflow: the date-set builders (explicit calendar toggling and
the weekday-in-range rule), the round-robin rotation engine, and the
validation/commit step that turns a preview into persisted rows.

Two page variants exist in the source.  The explicit-selection variant keeps a
set of toggled dates and sorts it before rotating; the weekday-rule variant
generates the date list from a start date, an end date and a day of week.  The
rotation loop itself is textually identical in both variants and is embedded
once as `computeRotation`.

JS `Date` values are modelled by their civil-calendar day number (`rataDie`,
Hinnant's `days_from_civil` shifted so it stays in `Nat`); `getDay` becomes
`weekdayOf`, and `toISOString().split("T")[0]` becomes `isoOfDayNumber`.
-/

/-- A schedulable person as supplied by the member directory (source interface
`Member { id, name }`). -/
structure Member where
  id : String
  name : String
deriving DecidableEq

/-- One row of the generated mapping (source interface
`PreviewAssignment { date, memberId, memberName }`). -/
structure PreviewAssignment where
  date : String
  memberId : String
  memberName : String
deriving DecidableEq

/-- One persisted scheduling record as built at commit time (the object literal
in `handleSubmit`). -/
structure ServiceAssignmentRow where
  org_id : String
  service_type_id : String
  member_id : String
  service_date : String
  status : String
deriving DecidableEq

/-- Observable outcome of `handleSubmit`: either a user-facing validation
message is set and the bulk insert is never invoked, or a batch of rows is
handed to `createBatchServiceAssignments`. -/
inductive SubmitOutcome where
  | validationError (message : String)
  | commit (rows : List ServiceAssignmentRow)
deriving DecidableEq

/-- Name resolution for one roster id:
`members.find((m) => m.id === memberId)` followed by
`member?.name || "未知"`.  The JS `||` falls through to the placeholder both
when no member was found and when the found name is the empty string (falsy). -/
def resolveName (members : List Member) (memberId : String) : String :=
  match members.find? (fun m => m.id == memberId) with
  | some m => if m.name = "" then "未知" else m.name
  | none => "未知"

/-- The round-robin loop shared verbatim by both page variants
(`dates.forEach((date, index) => { const memberIndex = index %
selectedMemberIds.length; ... })`); this is the spec's `computeRotation`
engine core.  Out-of-range indexing (never reached behind the callers'
guards) is modelled by `List.getD` with the empty string. -/
def computeRotation (dates : List String) (roster : List String)
    (members : List Member) : List PreviewAssignment :=
  dates.enum.map (fun p =>
    let memberId := roster.getD (p.1 % roster.length) ""
    { date := p.2, memberId := memberId,
      memberName := resolveName members memberId })

/-- The map in `handleSubmit` that turns the preview into the bulk-insert
payload: `previewAssignments.map((p) => ({ org_id, service_type_id,
member_id: p.memberId, service_date: p.date, status: "scheduled" }))`. -/
def buildAssignments (orgId serviceTypeId : String)
    (preview : List PreviewAssignment) : List ServiceAssignmentRow :=
  preview.map (fun p =>
    { org_id := orgId, service_type_id := serviceTypeId,
      member_id := p.memberId, service_date := p.date, status := "scheduled" })

/-- A calendar date: the `YYYY-MM-DD` components of an ISO date string. -/
structure Date where
  year : Nat
  month : Nat
  day : Nat
deriving DecidableEq

/-- Civil-calendar day number of a date (Hinnant's `days_from_civil`, shifted
by 719468 so that it stays in `Nat`; day 719468 is 1970-01-01).  This is the
embedding of the timeline on which JS `Date` comparison and
`setDate(getDate() + 1)` stepping operate. -/
def rataDie (dt : Date) : Nat :=
  let y := if dt.month ≤ 2 then dt.year - 1 else dt.year
  let era := y / 400
  let yoe := y % 400
  let mp := (dt.month + 9) % 12
  let doy := (153 * mp + 2) / 5 + (dt.day - 1)
  let doe := yoe * 365 + yoe / 4 - yoe / 100 + doy
  era * 146097 + doe

/-- JS `Date.prototype.getDay` (0 = Sunday .. 6 = Saturday) on the day-number
timeline: day 719468 (1970-01-01) was a Thursday, hence the offset 3. -/
def weekdayOf (z : Nat) : Nat :=
  (z + 3) % 7

/-- Inverse of `rataDie` (Hinnant's `civil_from_days`), used to print a day
number back as a calendar date. -/
def civilOfDayNumber (z : Nat) : Date :=
  let era := z / 146097
  let doe := z % 146097
  let yoe := (doe - doe / 1460 + doe / 36524 - doe / 146096) / 365
  let y := yoe + era * 400
  let doy := doe - (365 * yoe + yoe / 4 - yoe / 100)
  let mp := (5 * doy + 2) / 153
  let d := doy - (153 * mp + 2) / 5 + 1
  let m := if mp < 10 then mp + 3 else mp - 9
  if m ≤ 2 then ⟨y + 1, m, d⟩ else ⟨y, m, d⟩

/-- Left-pad a number with zeroes to the given width. -/
def padNum (width n : Nat) : String :=
  let s := toString n
  (List.replicate (width - s.length) '0').asString ++ s

/-- `d.toISOString().split("T")[0]`: the `YYYY-MM-DD` rendering of a day
number. -/
def isoOfDayNumber (z : Nat) : String :=
  let dt := civilOfDayNumber z
  padNum 4 dt.year ++ "-" ++ padNum 2 dt.month ++ "-" ++ padNum 2 dt.day

/-- Day-number core of `generateDates` (the `for` loop of the weekday-rule
variant): every day from start to end inclusive, kept when its weekday equals
the requested one.  When the end lies before the start the range is empty,
exactly as the JS loop `for (let d = start; d <= end; d.setDate(...))` never
runs. -/
def generateDayNumbers (startZ endZ w : Nat) : List Nat :=
  ((List.range (endZ + 1 - startZ)).map (fun i => startZ + i)).filter
    (fun z => weekdayOf z == w)

/-- `generateDates(startDate, endDate, dayOfWeek)` of the weekday-rule
variant: it pushes `d.toISOString().split("T")[0]` for every retained day. -/
def generateDates (startDate endDate : Date) (dayOfWeek : Nat) : List String :=
  (generateDayNumbers (rataDie startDate) (rataDie endDate) dayOfWeek).map
    isoOfDayNumber

/-- `toggleDate` of the explicit-selection variant: delete the date from the
selection set when present, add it otherwise.  The JS `Set` keeps insertion
order, so the set is modelled as a duplicate-free list with insertion at the
end. -/
def toggleDate (selectedDates : List String) (date : String) : List String :=
  if date ∈ selectedDates then selectedDates.erase date
  else selectedDates ++ [date]

/-- A whole sequence of toggle clicks applied to the initially empty
selection. -/
def applyToggles (clicks : List String) : List String :=
  clicks.foldl toggleDate []

/-- Code-unit-wise comparison of two character lists: the order used by the
default comparator of JS `Array.prototype.sort` (all dates here are ASCII, so
code units and code points agree). -/
def charsLe : List Char → List Char → Bool
  | [], _ => true
  | _ :: _, [] => false
  | a :: as, b :: bs =>
    if a.val.toNat < b.val.toNat then true
    else if b.val.toNat < a.val.toNat then false
    else charsLe as bs

/-- The string order used by the default JS sort, as a relation. -/
def jsLe (a b : String) : Prop :=
  charsLe a.data b.data = true

instance : DecidableRel jsLe := fun a b => by
  unfold jsLe
  infer_instance

/-- `Array.from(selectedDates).sort()`: the selection set enumerated and
sorted with the default (lexicographic, code-unit-wise) string comparison. -/
def sortDates (selectedDates : List String) : List String :=
  selectedDates.insertionSort jsLe

namespace Explicit

/-- `previewAssignments` of the explicit-selection variant: empty when no
service type is chosen, no member is selected or no date is toggled; otherwise
the rotation of the sorted toggled dates. -/
def previewAssignments (serviceTypeId : String) (selectedDates : List String)
    (selectedMemberIds : List String) (members : List Member) :
    List PreviewAssignment :=
  if serviceTypeId = "" ∨ selectedMemberIds.length = 0 ∨
      selectedDates.length = 0 then []
  else computeRotation (sortDates selectedDates) selectedMemberIds members

/-- `handleSubmit` of the explicit-selection variant: two validation guards,
then the preview is converted with `buildAssignments` and handed to the bulk
insert. -/
def handleSubmit (orgId serviceTypeId : String) (selectedDates : List String)
    (selectedMemberIds : List String) (members : List Member) :
    SubmitOutcome :=
  if serviceTypeId = "" ∨ selectedMemberIds.length = 0 then
    .validationError "请选择服务类型和至少一个成员"
  else if selectedDates.length = 0 then
    .validationError "请至少选择一个日期"
  else
    .commit (buildAssignments orgId serviceTypeId
      (previewAssignments serviceTypeId selectedDates selectedMemberIds
        members))

end Explicit

namespace Weekday

/-- `previewAssignments` of the weekday-rule variant: empty when no service
type is chosen or no member is selected; otherwise the rotation of the
generated date list (which may itself be empty). -/
def previewAssignments (serviceTypeId : String) (startDate endDate : Date)
    (dayOfWeek : Nat) (selectedMemberIds : List String)
    (members : List Member) : List PreviewAssignment :=
  if serviceTypeId = "" ∨ selectedMemberIds.length = 0 then []
  else computeRotation (generateDates startDate endDate dayOfWeek)
    selectedMemberIds members

/-- `handleSubmit` of the weekday-rule variant: the second guard rejects an
empty preview (no date in the range matched the weekday). -/
def handleSubmit (orgId serviceTypeId : String) (startDate endDate : Date)
    (dayOfWeek : Nat) (selectedMemberIds : List String)
    (members : List Member) : SubmitOutcome :=
  if serviceTypeId = "" ∨ selectedMemberIds.length = 0 then
    .validationError "请选择服务类型和至少一个成员"
  else if (previewAssignments serviceTypeId startDate endDate dayOfWeek
      selectedMemberIds members).length = 0 then
    .validationError "没有生成任何排班记录，请检查日期范围和星期设置"
  else
    .commit (buildAssignments orgId serviceTypeId
      (previewAssignments serviceTypeId startDate endDate dayOfWeek
        selectedMemberIds members))

end Weekday

example :
    generateDates ⟨2025, 1, 1⟩ ⟨2025, 1, 31⟩ 3 =
      ["2025-01-01", "2025-01-08", "2025-01-15", "2025-01-22", "2025-01-29"] :=
  by decide

example :
    sortDates (applyToggles ["2025-03-05", "2025-03-02"]) =
      ["2025-03-02", "2025-03-05"] := by decide

example :
    computeRotation ["2025-01-05", "2025-01-12", "2025-01-19"] ["A", "B"]
        [⟨"A", "Alice"⟩, ⟨"B", "Bob"⟩] =
      [⟨"2025-01-05", "A", "Alice"⟩, ⟨"2025-01-12", "B", "Bob"⟩,
        ⟨"2025-01-19", "A", "Alice"⟩] := by decide

theorem length_computeRotation (dates roster : List String)
    (members : List Member) :
    (computeRotation dates roster members).length = dates.length := by
  simp [computeRotation]

theorem getD_computeRotation (dates roster : List String) (members : List Member)
    (i : Nat) (hi : i < dates.length) :
    (computeRotation dates roster members).getD i ⟨"", "", ""⟩ =
      { date := dates.getD i "",
        memberId := roster.getD (i % roster.length) "",
        memberName := resolveName members (roster.getD (i % roster.length) "") } := by
  have hlen : i < (computeRotation dates roster members).length := by
    rw [length_computeRotation]; exact hi
  rw [List.getD_eq_getElem _ _ hlen, List.getD_eq_getElem _ _ hi]
  simp [computeRotation]

/-- C1: for every date list and non-empty roster, the rotation output has
exactly one entry per input date, in the same order as the input, and the
member assigned at 0-based index `i` is `roster[i % roster.length]`. -/
theorem C1_round_robin_indexing (dates roster : List String)
    (members : List Member) (hr : roster ≠ []) :
    (computeRotation dates roster members).length = dates.length ∧
    ∀ i, i < dates.length →
      ((computeRotation dates roster members).getD i ⟨"", "", ""⟩).date =
        dates.getD i "" ∧
      ((computeRotation dates roster members).getD i ⟨"", "", ""⟩).memberId =
        roster.get ⟨i % roster.length, Nat.mod_lt i (List.length_pos.mpr hr)⟩ := by
  refine ⟨length_computeRotation dates roster members, fun i hi => ?_⟩
  rw [getD_computeRotation dates roster members i hi]
  refine ⟨rfl, ?_⟩
  rw [List.getD_eq_getElem roster "" (Nat.mod_lt i (List.length_pos.mpr hr))]
  simp

/-- Witness for C1 at a concrete input: three dates over roster
`["A", "B"]`, the entry at index 2 wraps around to `"A"`. -/
theorem C1_round_robin_indexing_witness :
    ((computeRotation ["2025-01-05", "2025-01-12", "2025-01-19"] ["A", "B"]
      []).getD 2 ⟨"", "", ""⟩).memberId = "A" := by
  have h := C1_round_robin_indexing ["2025-01-05", "2025-01-12", "2025-01-19"]
    ["A", "B"] [] (by decide)
  have h2 := (h.2 2 (by decide)).2
  rw [h2]; rfl

/-- C4: a roster id absent from the member directory does not shrink the
output or fail it; its entries carry the placeholder name. -/
theorem C4_missing_lookup_placeholder (dates roster : List String)
    (members : List Member) (badId : String) (hr : roster ≠ [])
    (hmem : badId ∈ roster) (hbad : badId ∉ members.map Member.id) :
    (computeRotation dates roster members).length = dates.length ∧
    ∀ p ∈ computeRotation dates roster members,
      p.memberId = badId → p.memberName = "未知" := by
  refine ⟨length_computeRotation dates roster members, fun p hp hpid => ?_⟩
  unfold computeRotation at hp
  obtain ⟨q, hq, rfl⟩ := List.mem_map.mp hp
  have hpid2 : roster.getD (q.1 % roster.length) "" = badId := hpid
  show resolveName members (roster.getD (q.1 % roster.length) "") = "未知"
  rw [hpid2]
  unfold resolveName
  have hn : members.find? (fun m => m.id == badId) = none := by
    rw [List.find?_eq_none]
    intro m hm
    simp only [beq_iff_eq]
    intro he
    exact hbad (List.mem_map.mpr ⟨m, hm, he⟩)
  rw [hn]

/-- Witness for C4: roster id `"X"` is not in the directory, yet both entries
exist and carry the placeholder. -/
theorem C4_missing_lookup_placeholder_witness :
    (computeRotation ["2025-01-05", "2025-01-12"] ["X"]
      [⟨"A", "Alice"⟩]).length = 2 ∧
    ∀ p ∈ computeRotation ["2025-01-05", "2025-01-12"] ["X"] [⟨"A", "Alice"⟩],
      p.memberId = "X" → p.memberName = "未知" := by
  have h := C4_missing_lookup_placeholder ["2025-01-05", "2025-01-12"] ["X"]
    [⟨"A", "Alice"⟩] "X" (by decide) (by decide) (by decide)
  exact ⟨h.1.trans (by decide), h.2⟩

/-- C5: an empty date set or an empty roster makes both preview builders
return the plain empty list (and the bare rotation loop over no dates is
empty as well). -/
theorem C5_empty_inputs_empty_preview :
    (∀ stid roster members,
      Explicit.previewAssignments stid [] roster members = []) ∧
    (∀ stid dates members,
      Explicit.previewAssignments stid dates [] members = []) ∧
    (∀ stid s e w members,
      Weekday.previewAssignments stid s e w [] members = []) ∧
    (∀ stid s e w roster members, generateDates s e w = [] →
      Weekday.previewAssignments stid s e w roster members = []) ∧
    (∀ roster members, computeRotation [] roster members = []) := by
  refine ⟨?_, ?_, ?_, ?_, ?_⟩
  · intro stid roster members
    simp [Explicit.previewAssignments]
  · intro stid dates members
    simp [Explicit.previewAssignments]
  · intro stid s e w members
    simp [Weekday.previewAssignments]
  · intro stid s e w roster members hgen
    unfold Weekday.previewAssignments
    split_ifs with h
    · rfl
    · rw [hgen]; rfl
  · intro roster members
    rfl

/-- Witness for C5 at concrete inputs, including a weekday window whose end
lies before its start. -/
theorem C5_empty_inputs_empty_preview_witness :
    Explicit.previewAssignments "t" [] ["A"] [] = [] ∧
    Weekday.previewAssignments "t" ⟨2025, 1, 2⟩ ⟨2025, 1, 1⟩ 0 ["A"] [] = [] :=
  ⟨C5_empty_inputs_empty_preview.1 "t" ["A"] [],
    C5_empty_inputs_empty_preview.2.2.2.1 "t" ⟨2025, 1, 2⟩ ⟨2025, 1, 1⟩ 0 ["A"]
      [] (by decide)⟩

/-- C9: the engine and both preview builders are pure functions of their
arguments: equal inputs give equal outputs. -/
theorem C9_engine_pure (d₁ d₂ r₁ r₂ : List String) (m₁ m₂ : List Member)
    (hd : d₁ = d₂) (hr : r₁ = r₂) (hm : m₁ = m₂) :
    computeRotation d₁ r₁ m₁ = computeRotation d₂ r₂ m₂ ∧
    (∀ stid, Explicit.previewAssignments stid d₁ r₁ m₁ =
      Explicit.previewAssignments stid d₂ r₂ m₂) ∧
    (∀ stid s e w, Weekday.previewAssignments stid s e w r₁ m₁ =
      Weekday.previewAssignments stid s e w r₂ m₂) := by
  subst hd; subst hr; subst hm
  exact ⟨rfl, fun _ => rfl, fun _ _ _ _ => rfl⟩

/-- Witness for C9 at a concrete input. -/
theorem C9_engine_pure_witness :
    computeRotation ["2025-01-05"] ["A"] [] =
      computeRotation ["2025-01-05"] ["A"] [] :=
  (C9_engine_pure ["2025-01-05"] ["2025-01-05"] ["A"] ["A"] [] [] rfl rfl
    rfl).1

theorem countP_range_mod (k j : Nat) (hk : 0 < k) (hj : j < k) (n : Nat) :
    (List.range n).countP (fun i => i % k == j) =
      n / k + if j < n % k then 1 else 0 := by
  induction n with
  | zero => simp
  | succ n ih =>
    rw [List.range_succ, List.countP_append, ih]
    have h1 : n + 1 = (n % k + 1) + k * (n / k) := by
      have := Nat.div_add_mod n k
      omega
    rw [h1, Nat.add_mul_div_left _ _ hk, Nat.add_mul_mod_self_left]
    have ha : n % k < k := Nat.mod_lt n hk
    rcases Nat.lt_or_ge (n % k + 1) k with hlt | hge
    · rw [Nat.div_eq_of_lt hlt, Nat.mod_eq_of_lt hlt]
      simp only [List.countP_cons, List.countP_nil, beq_iff_eq]
      split_ifs <;> omega
    · have heq : n % k + 1 = k := by omega
      rw [heq, Nat.div_self hk, Nat.mod_self]
      simp only [List.countP_cons, List.countP_nil, beq_iff_eq]
      split_ifs <;> omega

/-- C2: over a duplicate-free roster, the date count splits as evenly as
possible: the member at roster index `j` is assigned
`dates.length / roster.length` times, plus one more exactly when
`j < dates.length % roster.length` (so the first `r` roster members get the
extra assignment). -/
theorem C2_balanced_rotation_counts (dates roster : List String)
    (members : List Member) (hd : dates ≠ []) (hr : roster ≠ [])
    (hnd : roster.Nodup) (j : Nat) (hj : j < roster.length) :
    ((computeRotation dates roster members).map
        PreviewAssignment.memberId).count (roster.get ⟨j, hj⟩) =
      dates.length / roster.length +
        if j < dates.length % roster.length then 1 else 0 := by
  have hk : 0 < roster.length := List.length_pos.mpr hr
  have hmap : (computeRotation dates roster members).map
      PreviewAssignment.memberId =
      (List.range dates.length).map
        (fun i => roster.getD (i % roster.length) "") := by
    apply List.ext_getElem
    · simp [computeRotation]
    · intro i h1 h2
      simp [computeRotation]
  rw [hmap, List.count_eq_countP, List.countP_map]
  have hcong : ∀ i ∈ List.range dates.length,
      (((fun x => x == roster.get ⟨j, hj⟩) ∘
          fun i => roster.getD (i % roster.length) "") i = true) ↔
        ((fun i => i % roster.length == j) i = true) := by
    intro i _
    have hik : i % roster.length < roster.length := Nat.mod_lt i hk
    simp only [Function.comp_apply, beq_iff_eq]
    rw [List.getD_eq_getElem roster "" hik, List.get_eq_getElem]
    exact hnd.getElem_inj_iff
  rw [List.countP_congr hcong]
  exact countP_range_mod roster.length j hk hj dates.length

/-- Witness for C2: three dates over the two-member roster `["A", "B"]`;
`"A"` is assigned twice. -/
theorem C2_balanced_rotation_counts_witness :
    ((computeRotation ["2025-01-05", "2025-01-12", "2025-01-19"] ["A", "B"]
        []).map PreviewAssignment.memberId).count "A" = 2 := by
  have h := C2_balanced_rotation_counts
    ["2025-01-05", "2025-01-12", "2025-01-19"] ["A", "B"] [] (by decide)
    (by decide) (by decide) 0 (by decide)
  exact h.trans (by decide)

/-- C3: the weekday-rule builder yields exactly the days of the inclusive
range whose day of week matches, in ascending order; a reversed range gives
the empty list; and for January 2025 with weekday 3 it yields exactly the
five Wednesdays. -/
theorem C3_weekday_rule (s e : Date) (w : Nat) :
    (∀ z, z ∈ generateDayNumbers (rataDie s) (rataDie e) w ↔
      (rataDie s ≤ z ∧ z ≤ rataDie e ∧ weekdayOf z = w)) ∧
    List.Sorted (· < ·) (generateDayNumbers (rataDie s) (rataDie e) w) ∧
    (rataDie e < rataDie s → generateDates s e w = []) ∧
    generateDates ⟨2025, 1, 1⟩ ⟨2025, 1, 31⟩ 3 =
      ["2025-01-01", "2025-01-08", "2025-01-15", "2025-01-22",
        "2025-01-29"] := by
  refine ⟨?_, ?_, ?_, by decide⟩
  · intro z
    unfold generateDayNumbers
    rw [List.mem_filter]
    simp only [List.mem_map, List.mem_range, beq_iff_eq]
    constructor
    · rintro ⟨⟨i, hi, rfl⟩, hw⟩
      exact ⟨Nat.le_add_right _ _, by omega, hw⟩
    · rintro ⟨h1, h2, hw⟩
      exact ⟨⟨z - rataDie s, by omega, by omega⟩, hw⟩
  · unfold generateDayNumbers
    apply List.Pairwise.filter
    exact List.Pairwise.map _ (fun a b hab => by omega)
      (List.pairwise_lt_range _)
  · intro hlt
    unfold generateDates generateDayNumbers
    have h0 : rataDie e + 1 - rataDie s = 0 := by omega
    rw [h0]
    rfl

/-- Witness for C3: a reversed range is empty, and 2025-01-08 is among the
generated Wednesdays of January 2025. -/
theorem C3_weekday_rule_witness :
    generateDates ⟨2025, 1, 2⟩ ⟨2025, 1, 1⟩ 3 = [] ∧
    rataDie ⟨2025, 1, 8⟩ ∈
      generateDayNumbers (rataDie ⟨2025, 1, 1⟩) (rataDie ⟨2025, 1, 31⟩) 3 :=
  ⟨(C3_weekday_rule ⟨2025, 1, 2⟩ ⟨2025, 1, 1⟩ 3).2.2.1 (by decide),
    ((C3_weekday_rule ⟨2025, 1, 1⟩ ⟨2025, 1, 31⟩ 3).1 _).mpr (by decide)⟩

theorem charsLe_cons_iff (a b : Char) (as bs : List Char) :
    charsLe (a :: as) (b :: bs) = true ↔
      (a.val.toNat < b.val.toNat ∨
        (a.val.toNat = b.val.toNat ∧ charsLe as bs = true)) := by
  have hdef : charsLe (a :: as) (b :: bs) =
      (if a.val.toNat < b.val.toNat then true
       else if b.val.toNat < a.val.toNat then false
       else charsLe as bs) := rfl
  rw [hdef]
  by_cases h1 : a.val.toNat < b.val.toNat
  · simp [h1]
  · by_cases h2 : b.val.toNat < a.val.toNat
    · simp only [if_neg h1, if_pos h2]
      constructor
      · intro h; exact absurd h (by simp)
      · rintro (h | ⟨he, _⟩) <;> omega
    · simp only [if_neg h1, if_neg h2]
      constructor
      · intro h; exact Or.inr ⟨by omega, h⟩
      · rintro (h | ⟨he, h⟩)
        · omega
        · exact h

theorem charsLe_total : ∀ as bs : List Char,
    charsLe as bs = true ∨ charsLe bs as = true := by
  intro as
  induction as with
  | nil => intro bs; exact Or.inl rfl
  | cons a as ih =>
    intro bs
    cases bs with
    | nil => exact Or.inr rfl
    | cons b bs =>
      rw [charsLe_cons_iff, charsLe_cons_iff]
      rcases Nat.lt_trichotomy a.val.toNat b.val.toNat with h | h | h
      · exact Or.inl (Or.inl h)
      · rcases ih bs with h2 | h2
        · exact Or.inl (Or.inr ⟨h, h2⟩)
        · exact Or.inr (Or.inr ⟨h.symm, h2⟩)
      · exact Or.inr (Or.inl h)

theorem charsLe_trans : ∀ as bs cs : List Char,
    charsLe as bs = true → charsLe bs cs = true → charsLe as cs = true := by
  intro as
  induction as with
  | nil => intro bs cs _ _; rfl
  | cons a as ih =>
    intro bs cs h1 h2
    cases bs with
    | nil => exact absurd h1 (by simp [charsLe])
    | cons b bs =>
      cases cs with
      | nil => exact absurd h2 (by simp [charsLe])
      | cons c cs =>
        rw [charsLe_cons_iff] at h1 h2 ⊢
        rcases h1 with h1 | ⟨he1, h1⟩
        · rcases h2 with h2 | ⟨he2, h2⟩
          · exact Or.inl (by omega)
          · exact Or.inl (by omega)
        · rcases h2 with h2 | ⟨he2, h2⟩
          · exact Or.inl (by omega)
          · exact Or.inr ⟨by omega, ih bs cs h1 h2⟩

theorem charsLe_antisymm : ∀ as bs : List Char,
    charsLe as bs = true → charsLe bs as = true → as = bs := by
  intro as
  induction as with
  | nil =>
    intro bs h1 h2
    cases bs with
    | nil => rfl
    | cons b bs => exact absurd h2 (by simp [charsLe])
  | cons a as ih =>
    intro bs h1 h2
    cases bs with
    | nil => exact absurd h1 (by simp [charsLe])
    | cons b bs =>
      rw [charsLe_cons_iff] at h1 h2
      rcases h1 with h1 | ⟨he1, h1⟩
      · exfalso
        rcases h2 with h2 | ⟨he2, _⟩ <;> omega
      · rcases h2 with h2 | ⟨he2, h2⟩
        · exfalso; omega
        · have hab : a = b := Char.ext (UInt32.ext he1)
          rw [hab, ih bs h1 h2]

instance : IsTotal String jsLe :=
  ⟨fun a b => charsLe_total a.data b.data⟩

instance : IsTrans String jsLe :=
  ⟨fun a b c h1 h2 => charsLe_trans a.data b.data c.data h1 h2⟩

instance : IsAntisymm String jsLe :=
  ⟨fun a b h1 h2 => String.ext (charsLe_antisymm a.data b.data h1 h2)⟩

theorem nodup_toggleDate (l : List String) (x : String) (h : l.Nodup) :
    (toggleDate l x).Nodup := by
  unfold toggleDate
  split_ifs with hx
  · exact h.erase x
  · rw [List.nodup_append]
    refine ⟨h, List.nodup_singleton x, ?_⟩
    intro a ha hax
    rw [List.mem_singleton] at hax
    subst hax
    exact hx ha

theorem nodup_applyToggles (clicks : List String) :
    (applyToggles clicks).Nodup := by
  have key : ∀ (cl : List String) (acc : List String), acc.Nodup →
      (cl.foldl toggleDate acc).Nodup := by
    intro cl
    induction cl with
    | nil => intro acc h; exact h
    | cons c cs ih =>
      intro acc h
      exact ih (toggleDate acc c) (nodup_toggleDate acc c h)
  exact key clicks [] List.nodup_nil

/-- C8: the explicit-selection builder always yields the toggled set sorted
ascending and duplicate-free; the output depends only on which dates remain
toggled, not on the click order; and toggling 2025-03-05 then 2025-03-02
yields the two dates in ascending order. -/
theorem C8_explicit_selection_sorted (clicks : List String) :
    List.Sorted jsLe (sortDates (applyToggles clicks)) ∧
    (sortDates (applyToggles clicks)).Nodup ∧
    (∀ x, x ∈ sortDates (applyToggles clicks) ↔ x ∈ applyToggles clicks) ∧
    (∀ clicks₂ : List String,
      (∀ x, x ∈ applyToggles clicks ↔ x ∈ applyToggles clicks₂) →
      sortDates (applyToggles clicks) = sortDates (applyToggles clicks₂)) ∧
    sortDates (applyToggles ["2025-03-05", "2025-03-02"]) =
      ["2025-03-02", "2025-03-05"] := by
  refine ⟨List.sorted_insertionSort jsLe _, ?_, ?_, ?_, by decide⟩
  · exact ((List.perm_insertionSort jsLe _).nodup_iff).mpr
      (nodup_applyToggles clicks)
  · intro x; exact List.mem_insertionSort jsLe
  · intro clicks₂ hmem
    have p : (sortDates (applyToggles clicks)).Perm
        (sortDates (applyToggles clicks₂)) :=
      ((List.perm_insertionSort jsLe _).trans
        ((List.perm_ext_iff_of_nodup (nodup_applyToggles _)
          (nodup_applyToggles _)).mpr hmem)).trans
        (List.perm_insertionSort jsLe _).symm
    exact List.eq_of_perm_of_sorted p (List.sorted_insertionSort jsLe _)
      (List.sorted_insertionSort jsLe _)

/-- Witness for C8: two different click orders (one toggling a date on and
off again) leave the same selected set and give the same sorted output. -/
theorem C8_explicit_selection_sorted_witness :
    sortDates (applyToggles ["2025-03-05", "2025-03-02"]) =
      sortDates (applyToggles ["2025-03-02", "2025-03-09", "2025-03-05",
        "2025-03-09"]) := by
  have h := C8_explicit_selection_sorted ["2025-03-05", "2025-03-02"]
  refine h.2.2.2.1 _ ?_
  have e1 : applyToggles ["2025-03-05", "2025-03-02"] =
      ["2025-03-05", "2025-03-02"] := by decide
  have e2 : applyToggles ["2025-03-02", "2025-03-09", "2025-03-05",
      "2025-03-09"] = ["2025-03-02", "2025-03-05"] := by decide
  rw [e1, e2]
  intro x
  simp only [List.mem_cons, List.not_mem_nil, or_false]
  tauto

theorem buildAssignments_computeRotation (orgId stid : String)
    (dates roster : List String) (members : List Member) :
    buildAssignments orgId stid (computeRotation dates roster members) =
      dates.enum.map (fun p =>
        { org_id := orgId, service_type_id := stid,
          member_id := roster.getD (p.1 % roster.length) "",
          service_date := p.2, status := "scheduled" }) := by
  unfold buildAssignments computeRotation
  rw [List.map_map]
  rfl

/-- C6: the commit batch has exactly one row per preview entry, in the same
order, tagged with the chosen org and service type, carrying that entry's
member id and date, and status scheduled; and when validation passes, both
submit handlers hand exactly this batch to the bulk insert. -/
theorem C6_commit_row_shape (orgId stid : String)
    (preview : List PreviewAssignment) :
    (buildAssignments orgId stid preview).length = preview.length ∧
    (∀ i, i < preview.length →
      (buildAssignments orgId stid preview).getD i ⟨"", "", "", "", ""⟩ =
        { org_id := orgId, service_type_id := stid,
          member_id := (preview.getD i ⟨"", "", ""⟩).memberId,
          service_date := (preview.getD i ⟨"", "", ""⟩).date,
          status := "scheduled" }) ∧
    (∀ (dates roster : List String) (members : List Member),
      stid ≠ "" → roster ≠ [] → dates ≠ [] →
      Explicit.handleSubmit orgId stid dates roster members =
        .commit (buildAssignments orgId stid
          (Explicit.previewAssignments stid dates roster members))) ∧
    (∀ (s e : Date) (w : Nat) (roster : List String) (members : List Member),
      stid ≠ "" → roster ≠ [] → generateDates s e w ≠ [] →
      Weekday.handleSubmit orgId stid s e w roster members =
        .commit (buildAssignments orgId stid
          (Weekday.previewAssignments stid s e w roster members))) := by
  refine ⟨by simp [buildAssignments], ?_, ?_, ?_⟩
  · intro i hi
    have hlen : i < (buildAssignments orgId stid preview).length := by
      simpa [buildAssignments] using hi
    rw [List.getD_eq_getElem _ _ hlen, List.getD_eq_getElem _ _ hi]
    simp [buildAssignments]
  · intro dates roster members h1 h2 h3
    have g1 : ¬ (stid = "" ∨ roster.length = 0) := by
      push_neg
      exact ⟨h1, by simpa [List.length_eq_zero] using h2⟩
    have g2 : ¬ dates.length = 0 := by
      simpa [List.length_eq_zero] using h3
    unfold Explicit.handleSubmit
    rw [if_neg g1, if_neg g2]
  · intro s e w roster members h1 h2 h3
    have g1 : ¬ (stid = "" ∨ roster.length = 0) := by
      push_neg
      exact ⟨h1, by simpa [List.length_eq_zero] using h2⟩
    have g2 : ¬ (Weekday.previewAssignments stid s e w roster
        members).length = 0 := by
      unfold Weekday.previewAssignments
      rw [if_neg g1, length_computeRotation]
      simpa [List.length_eq_zero] using h3
    unfold Weekday.handleSubmit
    rw [if_neg g1, if_neg g2]

/-- Witness for C6: one preview row becomes one scheduled row for the chosen
org and service type. -/
theorem C6_commit_row_shape_witness :
    (buildAssignments "org1" "st1" [⟨"2025-01-05", "A", "Alice"⟩]).getD 0
      ⟨"", "", "", "", ""⟩ =
      ⟨"org1", "st1", "A", "2025-01-05", "scheduled"⟩ := by
  have h := (C6_commit_row_shape "org1" "st1"
    [⟨"2025-01-05", "A", "Alice"⟩]).2.1 0 (by decide)
  exact h.trans (by decide)

/-- C7: with no service type chosen, an empty roster or an empty date set,
both submit handlers stop at a validation message and never reach the bulk
insert. -/
theorem C7_validation_blocks_commit (orgId stid : String)
    (dates roster : List String) (members : List Member) (s e : Date)
    (w : Nat) :
    ((stid = "" ∨ roster = [] ∨ dates = []) →
      ∃ msg, Explicit.handleSubmit orgId stid dates roster members =
        .validationError msg) ∧
    ((stid = "" ∨ roster = [] ∨ generateDates s e w = []) →
      ∃ msg, Weekday.handleSubmit orgId stid s e w roster members =
        .validationError msg) := by
  constructor
  · intro h
    unfold Explicit.handleSubmit
    by_cases h1 : stid = "" ∨ roster.length = 0
    · exact ⟨_, by rw [if_pos h1]⟩
    · have hd : dates = [] := by
        push_neg at h1
        rcases h with h | h | h
        · exact absurd h h1.1
        · exact absurd (by simp [h]) h1.2
        · exact h
      exact ⟨_, by rw [if_neg h1, if_pos (by simp [hd])]⟩
  · intro h
    unfold Weekday.handleSubmit
    by_cases h1 : stid = "" ∨ roster.length = 0
    · exact ⟨_, by rw [if_pos h1]⟩
    · have hg : generateDates s e w = [] := by
        push_neg at h1
        rcases h with h | h | h
        · exact absurd h h1.1
        · exact absurd (by simp [h]) h1.2
        · exact h
      have h2 : (Weekday.previewAssignments stid s e w roster
          members).length = 0 := by
        unfold Weekday.previewAssignments
        rw [if_neg h1, hg]
        rfl
      exact ⟨_, by rw [if_neg h1, if_pos h2]⟩

/-- Witness for C7: a missing service type blocks the explicit variant; an
empty generated date range blocks the weekday variant. -/
theorem C7_validation_blocks_commit_witness :
    (∃ msg, Explicit.handleSubmit "org1" "" ["2025-01-05"] ["A"] [] =
      .validationError msg) ∧
    (∃ msg, Weekday.handleSubmit "org1" "st1" ⟨2025, 1, 2⟩ ⟨2025, 1, 1⟩ 0
      ["A"] [] = .validationError msg) := by
  have h := C7_validation_blocks_commit "org1" "" ["2025-01-05"] ["A"] []
    ⟨2025, 1, 2⟩ ⟨2025, 1, 1⟩ 0
  have h2 := C7_validation_blocks_commit "org1" "st1" ["2025-01-05"] ["A"] []
    ⟨2025, 1, 2⟩ ⟨2025, 1, 1⟩ 0
  exact ⟨h.1 (Or.inl rfl), h2.2 (Or.inr (Or.inr (by decide)))⟩

/-- C10: the batch submitted at commit is independent of the member name
lookup: runs differing only in the member directory produce identical submit
outcomes, in both variants. -/
theorem C10_commit_independent_of_name_lookup (orgId stid : String)
    (dates roster : List String) (s e : Date) (w : Nat)
    (members₁ members₂ : List Member) :
    Explicit.handleSubmit orgId stid dates roster members₁ =
      Explicit.handleSubmit orgId stid dates roster members₂ ∧
    Weekday.handleSubmit orgId stid s e w roster members₁ =
      Weekday.handleSubmit orgId stid s e w roster members₂ := by
  constructor
  · unfold Explicit.handleSubmit
    by_cases h1 : stid = "" ∨ roster.length = 0
    · rw [if_pos h1, if_pos h1]
    · rw [if_neg h1, if_neg h1]
      by_cases h2 : dates.length = 0
      · rw [if_pos h2, if_pos h2]
      · rw [if_neg h2, if_neg h2]
        have hg : ¬ (stid = "" ∨ roster.length = 0 ∨ dates.length = 0) := by
          push_neg at h1 ⊢
          exact ⟨h1.1, h1.2, h2⟩
        unfold Explicit.previewAssignments
        rw [if_neg hg, if_neg hg, buildAssignments_computeRotation,
          buildAssignments_computeRotation]
  · unfold Weekday.handleSubmit
    by_cases h1 : stid = "" ∨ roster.length = 0
    · rw [if_pos h1, if_pos h1]
    · have hlen : (Weekday.previewAssignments stid s e w roster
          members₁).length =
        (Weekday.previewAssignments stid s e w roster members₂).length := by
        unfold Weekday.previewAssignments
        rw [if_neg h1, if_neg h1, length_computeRotation,
          length_computeRotation]
      rw [if_neg h1, if_neg h1]
      by_cases h2 : (Weekday.previewAssignments stid s e w roster
          members₁).length = 0
      · rw [if_pos h2, if_pos (hlen ▸ h2)]
      · rw [if_neg h2, if_neg (hlen ▸ h2)]
        unfold Weekday.previewAssignments
        rw [if_neg h1, if_neg h1, buildAssignments_computeRotation,
          buildAssignments_computeRotation]
